import Mathlib

/-!
Verification development for the high-level DX IR module layer (`HLModule`),
the semantic sidecar object model of a shader front-end compiler: resource
registries, I/O signatures, per-function shader properties, the resource type
annotation table, precise-attribute tracking, the option bitset, and the
metadata codec that serializes the model into generic metadata trees and
reconstructs it.

The repository provides the public surface in `src/include/dxc/HLSL/HLModule.h`.
Where a member's body is present in that header (the `HLOptions` default
constructor and the bitfield layout) the Lean definition is translated from it
directly.  Where only the declaration is present (the `.cpp` bodies are not part
of the given sources) the definition is modelled from the design document's
words, and its doc comment says so.  IR entities owned by the host
infrastructure (global variables, functions, types, values) are identified by
natural-number references, as the model only ever compares them by identity.
-/

/-- Error taxonomy of the design document's error-handling section. -/
inductive HLError where
  | SchemaVersionMismatch
  | MalformedMetadata
  | IndexOutOfRange
  | NotFound
  | DuplicateEntry
  | NullReference
deriving DecidableEq, Repr

/-- The `HLOptions` bitfield struct of HLModule.h (lines 94-99): five one-bit
flags, in declaration order `bDefaultRowMajor`, `bIEEEStrict`,
`bAllResourcesBound`, `bDisableOptimizations`, `bLegacyCBufferLoad`, followed
by a 27-bit `unused` field; together the fields cover all 32 bits of the word.
The one-bit fields are modelled as `Bool`, the 27-bit field as a `Nat`
(meaningful when `< 2 ^ 27`). -/
structure HLOptions where
  bDefaultRowMajor : Bool
  bIEEEStrict : Bool
  bAllResourcesBound : Bool
  bDisableOptimizations : Bool
  bLegacyCBufferLoad : Bool
  unused : Nat
deriving DecidableEq, Repr

/-- One bit as a natural number. -/
def bitToNat (b : Bool) : Nat := if b then 1 else 0

/-- Modelled from the spec: the body of `HLOptions::GetHLOptionsRaw` is not in
the given sources (HLModule.h line 92 declares it only); it is modelled as
reading the raw 32-bit word laid out by the bitfield declaration, bit 0 being
`bDefaultRowMajor` and bits 5..31 the `unused` field. -/
def HLOptions.GetHLOptionsRaw (o : HLOptions) : Nat :=
  bitToNat o.bDefaultRowMajor + 2 * bitToNat o.bIEEEStrict +
    4 * bitToNat o.bAllResourcesBound + 8 * bitToNat o.bDisableOptimizations +
    16 * bitToNat o.bLegacyCBufferLoad + 32 * o.unused

/-- Modelled from the spec: the body of `HLOptions::SetHLOptionsRaw` is not in
the given sources (HLModule.h line 93 declares it only); it is modelled as
writing the 32-bit word `data` into the declared bitfield layout. -/
def HLOptions.SetHLOptionsRaw (data : Nat) : HLOptions :=
  ⟨data % 2 == 1, data / 2 % 2 == 1, data / 4 % 2 == 1, data / 8 % 2 == 1,
    data / 16 % 2 == 1, data / 32 % 2 ^ 27⟩

/-- The `HLOptions` default constructor of HLModule.h lines 88-91.  Its
initializer list sets `bDefaultRowMajor`, `bIEEEStrict`,
`bDisableOptimizations`, `bLegacyCBufferLoad` to `false` and `unused` to `0`,
and does not mention `bAllResourcesBound`; in C++ that bitfield is therefore
left indeterminate, modelled here as an arbitrary `Bool` parameter. -/
def HLOptions.defaultInit (indeterminateAllResourcesBound : Bool) : HLOptions :=
  ⟨false, false, indeterminateAllResourcesBound, false, false, 0⟩

/-- Shader resource classes (`DXIL::ResourceClass`), with the `Invalid`
sentinel returned by probing queries on unannotated types. -/
inductive ResourceClass where
  | SRV
  | UAV
  | CBuffer
  | Sampler
  | Invalid
deriving DecidableEq, Repr

/-- Shader resource kinds (`DXIL::ResourceKind`), abridged to a representative
set of constructors; `Invalid` is the sentinel kind. -/
inductive ResourceKind where
  | Invalid
  | Texture1D
  | Texture2D
  | Texture3D
  | TypedBuffer
  | RawBuffer
  | StructuredBuffer
  | CBuffer
  | Sampler
deriving DecidableEq, Repr

/-- Modelled from the spec: a resource registry entry's identity, the common
core of `DxilCBuffer`, `DxilSampler` and `HLResource` (whose definitions are in
headers outside the given sources): "name, bind point, range, shape", plus the
global-variable symbol by which `RemoveResources` matches entries by
identity. -/
structure ResourceRec where
  symbol : Nat
  name : String
  lowerBound : Nat
  rangeSize : Nat
deriving DecidableEq, Repr

/-- Modelled from the spec: one signature element — "semantic name,
system-value kind, component type, shape, register index" (the `DxilSignature`
element type is declared outside the given sources). -/
structure DxilSignatureElement where
  semanticName : String
  systemValue : Nat
  compType : Nat
  rows : Nat
  cols : Nat
  startRow : Nat
  startCol : Nat
deriving DecidableEq, Repr

/-- A signature: an ordered sequence of elements (order is binary-layout
significant). -/
abbrev DxilSignature := List DxilSignatureElement

/-- The `HLFunctionProps` tagged union of HLModule.h lines 46-85, one
constructor per shader kind; the C++ union plus its `shaderKind` discriminator
is exactly a sum type.  `maxTessFactorBits` carries the hull shader's float
field as raw bits. -/
inductive HLFunctionProps where
  | CS (numThreadsX numThreadsY numThreadsZ : Nat)
  | GS (inputPrimitive maxVertexCount instanceCount streamTopology : Nat)
  | HS (patchConstantFunc domain partition outputPrimitive inputControlPoints
      outputControlPoints maxTessFactorBits : Nat)
  | DS (domain inputControlPoints : Nat)
  | VS (clipPlanes : List Nat)
  | PS (earlyDepthStencil : Bool)
deriving DecidableEq, Repr

/-- Modelled from the spec: the `HLModule` state of HLModule.h lines 249-301.
Registry lists hold `Option` entries because the data model says a registry
index is "stable for module lifetime, never reused": removing an entry leaves a
permanently dead slot instead of renumbering its successors.  Signatures are
`Option`s because `Release*` transfers ownership out (a released signature is a
null pointer).  `moduleGlobals` stands for the host module's global-variable
list, from which `RemoveResources` detaches removed resources. -/
structure HLModule where
  m_InputSignature : Option DxilSignature
  m_OutputSignature : Option DxilSignature
  m_PatchConstantSignature : Option DxilSignature
  m_SRVs : List (Option ResourceRec)
  m_UAVs : List (Option ResourceRec)
  m_CBuffers : List (Option ResourceRec)
  m_Samplers : List (Option ResourceRec)
  m_HLFunctionPropsMap : List (Nat × HLFunctionProps)
  m_ResTypeAnnots : List (Nat × ResourceClass × ResourceKind)
  m_EntryName : String
  m_Options : HLOptions
  moduleGlobals : List Nat
deriving DecidableEq, Repr

/-- The live entry at a registry index: `none` at a dead slot or out of
range. -/
def liveAt (vec : List (Option ResourceRec)) (idx : Nat) : Option ResourceRec :=
  vec[idx]?.bind id

/-- Modelled from the spec: the `AddResource` helper (HLModule.h line 300,
body not in the given sources) — "registry takes ownership; index = current
size of that category's list; list grows by one; never fails under normal
conditions". -/
def AddResource (vec : List (Option ResourceRec)) (res : ResourceRec) :
    Nat × List (Option ResourceRec) :=
  (vec.length, vec ++ [some res])

/-- Modelled from the spec: bounds-checked registry access — "signals
IndexOutOfRange on failure"; a dead (removed) slot is also out of range. -/
def GetResource (vec : List (Option ResourceRec)) (idx : Nat) :
    Except HLError ResourceRec :=
  match liveAt vec idx with
  | some r => .ok r
  | none => .error .IndexOutOfRange

/-- `HLModule::AddCBuffer`, via the shared `AddResource` helper. -/
def HLModule.AddCBuffer (M : HLModule) (pCB : ResourceRec) : Nat × HLModule :=
  ((AddResource M.m_CBuffers pCB).1,
    { M with m_CBuffers := (AddResource M.m_CBuffers pCB).2 })

/-- `HLModule::AddSampler`, via the shared `AddResource` helper. -/
def HLModule.AddSampler (M : HLModule) (pSampler : ResourceRec) : Nat × HLModule :=
  ((AddResource M.m_Samplers pSampler).1,
    { M with m_Samplers := (AddResource M.m_Samplers pSampler).2 })

/-- `HLModule::AddSRV`, via the shared `AddResource` helper. -/
def HLModule.AddSRV (M : HLModule) (pSRV : ResourceRec) : Nat × HLModule :=
  ((AddResource M.m_SRVs pSRV).1,
    { M with m_SRVs := (AddResource M.m_SRVs pSRV).2 })

/-- `HLModule::AddUAV`, via the shared `AddResource` helper. -/
def HLModule.AddUAV (M : HLModule) (pUAV : ResourceRec) : Nat × HLModule :=
  ((AddResource M.m_UAVs pUAV).1,
    { M with m_UAVs := (AddResource M.m_UAVs pUAV).2 })

/-- `HLModule::GetCBuffer`. -/
def HLModule.GetCBuffer (M : HLModule) (idx : Nat) : Except HLError ResourceRec :=
  GetResource M.m_CBuffers idx

/-- `HLModule::GetSampler`. -/
def HLModule.GetSampler (M : HLModule) (idx : Nat) : Except HLError ResourceRec :=
  GetResource M.m_Samplers idx

/-- `HLModule::GetSRV`. -/
def HLModule.GetSRV (M : HLModule) (idx : Nat) : Except HLError ResourceRec :=
  GetResource M.m_SRVs idx

/-- `HLModule::GetUAV`. -/
def HLModule.GetUAV (M : HLModule) (idx : Nat) : Except HLError ResourceRec :=
  GetResource M.m_UAVs idx

/-- Whether a registry slot holds a live entry with the given symbol. -/
def symbolIs (gv : Nat) : Option ResourceRec → Bool
  | some r => r.symbol == gv
  | none => false

/-- Whether `gv` is the symbol of a live entry in any of the four
categories. -/
def HLModule.IsResourceSymbol (M : HLModule) (gv : Nat) : Bool :=
  (M.m_CBuffers ++ M.m_Samplers ++ M.m_SRVs ++ M.m_UAVs).any (symbolIs gv)

/-- Kill every live entry whose symbol is in `refs`, leaving dead slots so
indices of survivors never move. -/
def killMatching (refs : List Nat) (vec : List (Option ResourceRec)) :
    List (Option ResourceRec) :=
  vec.map fun o =>
    match o with
    | some r => if r.symbol ∈ refs then none else some r
    | none => none

/-- Modelled from the spec: `HLModule::RemoveResources` (HLModule.h line 148,
body not in the given sources) — "removes matching entries across all four
categories by identity; per-entry no-op if not found (partial-batch success,
never aborts the batch); also detaches each global from the host module".  It
is a total function: no reference can fail the batch. -/
def HLModule.RemoveResources (M : HLModule) (refs : List Nat) : HLModule :=
  { M with
    m_CBuffers := killMatching refs M.m_CBuffers
    m_Samplers := killMatching refs M.m_Samplers
    m_SRVs := killMatching refs M.m_SRVs
    m_UAVs := killMatching refs M.m_UAVs
    moduleGlobals := M.moduleGlobals.filter fun g =>
      !(decide (g ∈ refs) && M.IsResourceSymbol g) }

/-- Modelled from the spec: `HLModule::GetInputSignature` — after a `Release`
the accessor fails with `NullReference` "rather than lazily re-allocating". -/
def HLModule.GetInputSignature (M : HLModule) : Except HLError DxilSignature :=
  match M.m_InputSignature with
  | some s => .ok s
  | none => .error .NullReference

/-- Modelled from the spec: `HLModule::GetOutputSignature`. -/
def HLModule.GetOutputSignature (M : HLModule) : Except HLError DxilSignature :=
  match M.m_OutputSignature with
  | some s => .ok s
  | none => .error .NullReference

/-- Modelled from the spec: `HLModule::GetPatchConstantSignature`. -/
def HLModule.GetPatchConstantSignature (M : HLModule) :
    Except HLError DxilSignature :=
  match M.m_PatchConstantSignature with
  | some s => .ok s
  | none => .error .NullReference

/-- Modelled from the spec: `HLModule::ReleaseInputSignature` — transfers sole
ownership of the input signature out of the module model. -/
def HLModule.ReleaseInputSignature (M : HLModule) :
    Option DxilSignature × HLModule :=
  (M.m_InputSignature, { M with m_InputSignature := none })

/-- Modelled from the spec: `HLModule::ReleaseOutputSignature`. -/
def HLModule.ReleaseOutputSignature (M : HLModule) :
    Option DxilSignature × HLModule :=
  (M.m_OutputSignature, { M with m_OutputSignature := none })

/-- Modelled from the spec: `HLModule::ReleasePatchConstantSignature`. -/
def HLModule.ReleasePatchConstantSignature (M : HLModule) :
    Option DxilSignature × HLModule :=
  (M.m_PatchConstantSignature, { M with m_PatchConstantSignature := none })

/-- `HLModule::HasHLFunctionProps`. -/
def HLModule.HasHLFunctionProps (M : HLModule) (F : Nat) : Bool :=
  (M.m_HLFunctionPropsMap.lookup F).isSome

/-- Modelled from the spec: `HLModule::GetHLFunctionProps` — "fails NotFound
if absent". -/
def HLModule.GetHLFunctionProps (M : HLModule) (F : Nat) :
    Except HLError HLFunctionProps :=
  match M.m_HLFunctionPropsMap.lookup F with
  | some p => .ok p
  | none => .error .NotFound

/-- Modelled from the spec: `HLModule::AddHLFunctionProps` — "transfers
ownership into the per-function map; calling it twice for the same function is
a usage error (DuplicateEntry)". -/
def HLModule.AddHLFunctionProps (M : HLModule) (F : Nat)
    (info : HLFunctionProps) : Except HLError HLModule :=
  if M.HasHLFunctionProps F then .error .DuplicateEntry
  else .ok { M with m_HLFunctionPropsMap := M.m_HLFunctionPropsMap ++ [(F, info)] }

/-- Insert-or-overwrite into the type annotation association list: the binding
for an already-present key is overwritten in place, a new key is appended. -/
def setAssoc : List (Nat × ResourceClass × ResourceKind) → Nat →
    ResourceClass × ResourceKind → List (Nat × ResourceClass × ResourceKind)
  | [], ty, v => [(ty, v)]
  | (a, b) :: rest, ty, v =>
      if a == ty then (ty, v) :: rest else (a, b) :: setAssoc rest ty v

/-- Modelled from the spec: `HLModule::AddResourceTypeAnnotation` (renamed to
fit this file's naming rules) — "insert-or-overwrite". -/
def HLModule.AddResourceTypeAnnot (M : HLModule) (Ty : Nat)
    (resClass : ResourceClass) (kind : ResourceKind) : HLModule :=
  { M with m_ResTypeAnnots := setAssoc M.m_ResTypeAnnots Ty (resClass, kind) }

/-- Modelled from the spec: `HLModule::GetResourceClass` — a probing query
that "returns a sentinel none value, not a failure, when unannotated". -/
def HLModule.GetResourceClass (M : HLModule) (Ty : Nat) : ResourceClass :=
  match M.m_ResTypeAnnots.lookup Ty with
  | some p => p.1
  | none => ResourceClass.Invalid

/-- Modelled from the spec: `HLModule::GetResourceKind`. -/
def HLModule.GetResourceKind (M : HLModule) (Ty : Nat) : ResourceKind :=
  match M.m_ResTypeAnnots.lookup Ty with
  | some p => p.2
  | none => ResourceKind.Invalid

/-- Modelled from the spec: an IR instruction as the precise tracker sees it —
either a call to the reserved, otherwise-inert marker function with the marked
value as operand, or any other instruction with its operand list. -/
inductive HLInstr where
  | markerCall (operand : Nat)
  | other (opcode : Nat) (operands : List Nat)
deriving DecidableEq, Repr

/-- Modelled from the spec: the IR state the precise-attribute mechanism
touches — the instruction stream and the set of values carrying the direct
precise metadata tag. -/
structure PreciseIR where
  instrs : List HLInstr
  taggedValues : List Nat
deriving DecidableEq, Repr

/-- Modelled from the spec:
`HLModule::MarkPreciseAttributeOnPtrWithFunctionCall` — "inserts a call to a
reserved, otherwise-inert marker function taking the value as its argument". -/
def MarkPreciseAttributeOnPtrWithFunctionCall (S : PreciseIR) (ptr : Nat) :
    PreciseIR :=
  { S with instrs := S.instrs ++ [.markerCall ptr] }

/-- Rewrite one operand under a value replacement. -/
def replaceOperand (old new : Nat) (v : Nat) : Nat := if v == old then new else v

/-- Modelled from the spec: the destructive register-promotion transform's
value replacement — "operand-rewriting is already a property that transform
guarantees generally", so every operand use of `old`, marker-call operands
included, is rewritten to `new`. -/
def replaceAllUses (S : PreciseIR) (old new : Nat) : PreciseIR :=
  { S with instrs := S.instrs.map fun i =>
      match i with
      | .markerCall v => .markerCall (replaceOperand old new v)
      | .other op vs => .other op (vs.map (replaceOperand old new)) }

/-- Whether an instruction is a marker call. -/
def isMarkerCall : HLInstr → Bool
  | .markerCall _ => true
  | .other _ _ => false

/-- Modelled from the spec: the post-conversion step — "a later pass resolves
each surviving marker call to its now-promoted value, converts the association
into a direct tag on that value, then deletes the marker call". -/
def ConvertPreciseMarkerCalls (S : PreciseIR) : PreciseIR :=
  { instrs := S.instrs.filter fun i => !isMarkerCall i
    taggedValues := S.taggedValues ++ S.instrs.filterMap fun i =>
      match i with
      | .markerCall v => some v
      | .other _ _ => none }

/-- Modelled from the spec: `HLModule::HasPreciseAttributeWithMetadata` — the
tag query over the post-conversion direct tag form. -/
def HasPreciseAttributeWithMetadata (S : PreciseIR) (v : Nat) : Bool :=
  S.taggedValues.contains v

/-- How many marker calls remain in the instruction stream. -/
def countMarkerCalls (S : PreciseIR) : Nat :=
  (S.instrs.filter isMarkerCall).length

/-- Generic metadata tree nodes of the host IR: integer leaves, string leaves
and tuples. -/
inductive Metadata where
  | num (n : Nat)
  | str (s : String)
  | tup (ops : List Metadata)

/-- Well-known metadata name of the schema version tag. -/
def kHLVersionMDName : String := "hl.version"

/-- Well-known metadata name of the entry descriptor. -/
def kHLEntryMDName : String := "hl.entry"

/-- Well-known metadata name of the resource lists. -/
def kHLResourcesMDName : String := "hl.resources"

/-- Well-known metadata name of the three signatures. -/
def kHLSignaturesMDName : String := "hl.signatures"

/-- Well-known metadata name of the resource type annotation entries. -/
def kHLResTyAnnotMDName : String := "hl.resTyAnnots"

/-- Well-known metadata name of the option bitset node. -/
def kHLOptionsMDName : String := "hl.options"

/-- Current schema major version. -/
def kHLMajorVersion : Nat := 1

/-- Current schema minor version. -/
def kHLMinorVersion : Nat := 0

/-- Serialize one live registry entry together with its stable index. -/
def emitResourceRec (p : Nat × ResourceRec) : Metadata :=
  .tup [.num p.1, .num p.2.symbol, .str p.2.name, .num p.2.lowerBound,
    .num p.2.rangeSize]

/-- The live entries of a registry list, each with its index, starting at
`start`. -/
def livePairsFrom (start : Nat) : List (Option ResourceRec) →
    List (Nat × ResourceRec)
  | [] => []
  | none :: rest => livePairsFrom (start + 1) rest
  | some r :: rest => (start, r) :: livePairsFrom (start + 1) rest

/-- The live entries of a registry list with their indices. -/
def livePairs (vec : List (Option ResourceRec)) : List (Nat × ResourceRec) :=
  livePairsFrom 0 vec

/-- Serialize one registry list in index order. -/
def emitResourceList (vec : List (Option ResourceRec)) : Metadata :=
  .tup ((livePairs vec).map emitResourceRec)

/-- Serialize the four resource categories in category-then-index order. -/
def emitHLResources (M : HLModule) : Metadata :=
  .tup [emitResourceList M.m_SRVs, emitResourceList M.m_UAVs,
    emitResourceList M.m_CBuffers, emitResourceList M.m_Samplers]

/-- Serialize one signature element as a fixed-arity tuple. -/
def emitSigElement (e : DxilSignatureElement) : Metadata :=
  .tup [.str e.semanticName, .num e.systemValue, .num e.compType, .num e.rows,
    .num e.cols, .num e.startRow, .num e.startCol]

/-- Serialize one signature, element order preserved. -/
def emitSignature (s : Option DxilSignature) : Metadata :=
  .tup ((s.getD []).map emitSigElement)

/-- Serialize the three signatures. -/
def emitHLSignatures (M : HLModule) : Metadata :=
  .tup [emitSignature M.m_InputSignature, emitSignature M.m_OutputSignature,
    emitSignature M.m_PatchConstantSignature]

/-- Serialize one per-function shader properties record, tagged by shader
kind. -/
def emitShaderProps : HLFunctionProps → Metadata
  | .CS x y z => .tup [.num 0, .num x, .num y, .num z]
  | .GS ip mv ic st => .tup [.num 1, .num ip, .num mv, .num ic, .num st]
  | .HS pcf d p op icp ocp mtf =>
      .tup [.num 2, .num pcf, .num d, .num p, .num op, .num icp, .num ocp,
        .num mtf]
  | .DS d icp => .tup [.num 3, .num d, .num icp]
  | .VS cps => .tup [.num 4, .tup (cps.map .num)]
  | .PS eds => .tup [.num 5, .num (bitToNat eds)]

/-- Serialize the entry descriptor: entry name followed by the per-function
shader properties records. -/
def emitHLEntry (M : HLModule) : Metadata :=
  .tup (.str M.m_EntryName ::
    M.m_HLFunctionPropsMap.map fun p => .tup [.num p.1, emitShaderProps p.2])

/-- Resource class wire tag. -/
def resClassToNat : ResourceClass → Nat
  | .SRV => 0
  | .UAV => 1
  | .CBuffer => 2
  | .Sampler => 3
  | .Invalid => 4

/-- Resource class from its wire tag. -/
def resClassOfNat : Nat → Option ResourceClass
  | 0 => some .SRV
  | 1 => some .UAV
  | 2 => some .CBuffer
  | 3 => some .Sampler
  | 4 => some .Invalid
  | _ => none

/-- Resource kind wire tag. -/
def resKindToNat : ResourceKind → Nat
  | .Invalid => 0
  | .Texture1D => 1
  | .Texture2D => 2
  | .Texture3D => 3
  | .TypedBuffer => 4
  | .RawBuffer => 5
  | .StructuredBuffer => 6
  | .CBuffer => 7
  | .Sampler => 8

/-- Resource kind from its wire tag. -/
def resKindOfNat : Nat → Option ResourceKind
  | 0 => some .Invalid
  | 1 => some .Texture1D
  | 2 => some .Texture2D
  | 3 => some .Texture3D
  | 4 => some .TypedBuffer
  | 5 => some .RawBuffer
  | 6 => some .StructuredBuffer
  | 7 => some .CBuffer
  | 8 => some .Sampler
  | _ => none

/-- Serialize the resource type annotation entries. -/
def emitResTyAnnots (M : HLModule) : Metadata :=
  .tup (M.m_ResTypeAnnots.map fun p =>
    .tup [.num p.1, .num (resClassToNat p.2.1), .num (resKindToNat p.2.2)])

/-- Modelled from the spec: `HLModule::EmitHLMetadata` (HLModule.h line 177,
body not in the given sources) — deterministic serialization of the full model
into fixed, well-known named trees: schema-version tag, entry descriptor with
stage properties, resource lists in category-then-index order, three
signatures with each element a fixed-arity tuple, type-annotation entries, and
the option bitset as one integer node. -/
def EmitHLMetadata (M : HLModule) : List (String × Metadata) :=
  [(kHLVersionMDName, .tup [.num kHLMajorVersion, .num kHLMinorVersion]),
    (kHLEntryMDName, emitHLEntry M),
    (kHLResourcesMDName, emitHLResources M),
    (kHLSignaturesMDName, emitHLSignatures M),
    (kHLResTyAnnotMDName, emitResTyAnnots M),
    (kHLOptionsMDName, .num M.m_Options.GetHLOptionsRaw)]

/-- Lookup of a well-known named tree among the module's named metadata. -/
def findNamed (md : List (String × Metadata)) (nm : String) : Option Metadata :=
  md.lookup nm

/-- Parse an integer node. -/
def parseNat : Metadata → Except HLError Nat
  | .num n => .ok n
  | _ => .error .MalformedMetadata

/-- Parse a list of nodes elementwise; the first malformed node fails the
whole parse. -/
def parseEach (f : Metadata → Except HLError α) :
    List Metadata → Except HLError (List α)
  | [] => .ok []
  | m :: rest => do
      let a ← f m
      let as ← parseEach f rest
      .ok (a :: as)

/-- Parse one registry entry tuple: (index, symbol, name, bind point, range
size); `MalformedMetadata` if the arity or an operand kind fails the schema. -/
def parseResourceRec : Metadata → Except HLError (Nat × ResourceRec)
  | .tup [.num idx, .num sym, .str nm, .num lb, .num rs] =>
      .ok (idx, ⟨sym, nm, lb, rs⟩)
  | _ => .error .MalformedMetadata

/-- Place a loaded entry at its serialized index, padding with dead slots. -/
def setAtIndex (vec : List (Option ResourceRec)) (idx : Nat) (r : ResourceRec) :
    List (Option ResourceRec) :=
  if idx < vec.length then vec.set idx (some r)
  else vec ++ List.replicate (idx - vec.length) none ++ [some r]

/-- Rebuild a registry list from loaded (index, entry) pairs. -/
def rebuildRegistry (ps : List (Nat × ResourceRec)) : List (Option ResourceRec) :=
  ps.foldl (fun acc p => setAtIndex acc p.1 p.2) []

/-- Parse one serialized registry list. -/
def parseResourceList : Metadata → Except HLError (List (Option ResourceRec))
  | .tup ops => do
      let ps ← parseEach parseResourceRec ops
      .ok (rebuildRegistry ps)
  | _ => .error .MalformedMetadata

/-- Parse one signature element tuple; `MalformedMetadata` on wrong arity or
operand kind. -/
def parseSigElement : Metadata → Except HLError DxilSignatureElement
  | .tup [.str nm, .num sv, .num ct, .num r, .num c, .num sr, .num sc] =>
      .ok ⟨nm, sv, ct, r, c, sr, sc⟩
  | _ => .error .MalformedMetadata

/-- Parse one signature. -/
def parseSignature : Metadata → Except HLError DxilSignature
  | .tup ops => parseEach parseSigElement ops
  | _ => .error .MalformedMetadata

/-- Parse a list of integer nodes. -/
def parseNatList : Metadata → Except HLError (List Nat)
  | .tup ops => parseEach parseNat ops
  | _ => .error .MalformedMetadata

/-- Parse one shader properties record by its kind tag. -/
def parseShaderProps : Metadata → Except HLError HLFunctionProps
  | .tup [.num 0, .num x, .num y, .num z] => .ok (.CS x y z)
  | .tup [.num 1, .num ip, .num mv, .num ic, .num st] => .ok (.GS ip mv ic st)
  | .tup [.num 2, .num pcf, .num d, .num p, .num op, .num icp, .num ocp,
      .num mtf] => .ok (.HS pcf d p op icp ocp mtf)
  | .tup [.num 3, .num d, .num icp] => .ok (.DS d icp)
  | .tup [.num 4, cps] => do
      let l ← parseNatList cps
      .ok (.VS l)
  | .tup [.num 5, .num eds] => .ok (.PS (eds == 1))
  | _ => .error .MalformedMetadata

/-- Parse one (function, shader properties) entry. -/
def parseFuncPropsEntry : Metadata → Except HLError (Nat × HLFunctionProps)
  | .tup [.num fn, props] => do
      let p ← parseShaderProps props
      .ok (fn, p)
  | _ => .error .MalformedMetadata

/-- Parse the entry descriptor. -/
def parseHLEntry : Metadata →
    Except HLError (String × List (Nat × HLFunctionProps))
  | .tup (.str nm :: rest) => do
      let ps ← parseEach parseFuncPropsEntry rest
      .ok (nm, ps)
  | _ => .error .MalformedMetadata

/-- Parse a resource class tag node. -/
def parseResClass (m : Metadata) : Except HLError ResourceClass :=
  match m with
  | .num n =>
      match resClassOfNat n with
      | some c => .ok c
      | none => .error .MalformedMetadata
  | _ => .error .MalformedMetadata

/-- Parse a resource kind tag node. -/
def parseResKind (m : Metadata) : Except HLError ResourceKind :=
  match m with
  | .num n =>
      match resKindOfNat n with
      | some k => .ok k
      | none => .error .MalformedMetadata
  | _ => .error .MalformedMetadata

/-- Parse one type annotation entry. -/
def parseResTyAnnot : Metadata →
    Except HLError (Nat × ResourceClass × ResourceKind)
  | .tup [.num ty, c, k] => do
      let rc ← parseResClass c
      let rk ← parseResKind k
      .ok (ty, rc, rk)
  | _ => .error .MalformedMetadata

/-- Load the schema version tag; a missing tag is treated as the current
version (best-effort, like any missing well-known group). -/
def loadHLVersion (md : List (String × Metadata)) : Except HLError (Nat × Nat) :=
  match findNamed md kHLVersionMDName with
  | none => .ok (kHLMajorVersion, kHLMinorVersion)
  | some (.tup [.num maj, .num minr]) => .ok (maj, minr)
  | some _ => .error .MalformedMetadata

/-- Load the entry descriptor; missing group means empty. -/
def loadHLEntry (md : List (String × Metadata)) :
    Except HLError (String × List (Nat × HLFunctionProps)) :=
  match findNamed md kHLEntryMDName with
  | none => .ok ("", [])
  | some m => parseHLEntry m

/-- Load the four resource category lists; missing group means all empty. -/
def loadHLResources (md : List (String × Metadata)) :
    Except HLError (List (Option ResourceRec) × List (Option ResourceRec) ×
      List (Option ResourceRec) × List (Option ResourceRec)) :=
  match findNamed md kHLResourcesMDName with
  | none => .ok ([], [], [], [])
  | some (.tup [srvs, uavs, cbs, smps]) => do
      let s ← parseResourceList srvs
      let u ← parseResourceList uavs
      let c ← parseResourceList cbs
      let sm ← parseResourceList smps
      .ok (s, u, c, sm)
  | some _ => .error .MalformedMetadata

/-- Load the three signatures; missing group means three empty signatures. -/
def loadHLSignatures (md : List (String × Metadata)) :
    Except HLError (DxilSignature × DxilSignature × DxilSignature) :=
  match findNamed md kHLSignaturesMDName with
  | none => .ok ([], [], [])
  | some (.tup [inS, outS, pcS]) => do
      let i ← parseSignature inS
      let o ← parseSignature outS
      let p ← parseSignature pcS
      .ok (i, o, p)
  | some _ => .error .MalformedMetadata

/-- Load the type annotation entries; missing group means empty. -/
def loadResTyAnnots (md : List (String × Metadata)) :
    Except HLError (List (Nat × ResourceClass × ResourceKind)) :=
  match findNamed md kHLResTyAnnotMDName with
  | none => .ok []
  | some (.tup ops) => parseEach parseResTyAnnot ops
  | some _ => .error .MalformedMetadata

/-- Load the option bitset node; missing group means all options zero. -/
def loadHLOptions (md : List (String × Metadata)) : Except HLError HLOptions :=
  match findNamed md kHLOptionsMDName with
  | none => .ok (HLOptions.SetHLOptionsRaw 0)
  | some (.num n) => .ok (HLOptions.SetHLOptionsRaw n)
  | some _ => .error .MalformedMetadata

/-- Modelled from the spec: the validating reconstruction behind
`HLModule::LoadHLMetadata` — validates the schema version
(`SchemaVersionMismatch` on an incompatible major version, best-effort accept
on minor skew), `MalformedMetadata` if tuple arity or operand kind fails the
schema at any node, missing well-known groups treated as empty. -/
def loadHLMetadataCore (md : List (String × Metadata)) :
    Except HLError HLModule := do
  let ver ← loadHLVersion md
  if ver.1 = kHLMajorVersion then
    let ent ← loadHLEntry md
    let res ← loadHLResources md
    let sigs ← loadHLSignatures md
    let annots ← loadResTyAnnots md
    let opts ← loadHLOptions md
    .ok
      { m_InputSignature := some sigs.1
        m_OutputSignature := some sigs.2.1
        m_PatchConstantSignature := some sigs.2.2
        m_SRVs := res.1
        m_UAVs := res.2.1
        m_CBuffers := res.2.2.1
        m_Samplers := res.2.2.2
        m_HLFunctionPropsMap := ent.2
        m_ResTypeAnnots := annots
        m_EntryName := ent.1
        m_Options := opts
        moduleGlobals := [] }
  else .error .SchemaVersionMismatch

/-- Modelled from the spec: `HLModule::LoadHLMetadata` (HLModule.h line 179,
body not in the given sources) — deserializes the metadata form into the
in-memory form; "failure leaves the target model unmodified (all-or-nothing)",
so the parsed model is committed only after the whole load succeeded.  The
host module's globals are not part of the metadata and stay the target's. -/
def LoadHLMetadata (target : HLModule) (md : List (String × Metadata)) :
    HLModule × Option HLError :=
  match loadHLMetadataCore md with
  | .ok m => ({ m with moduleGlobals := target.moduleGlobals }, none)
  | .error e => (target, some e)

/-- Observational equality of two module models, as the round-trip property
reads it: same resource at every index of every category, same signature
element order, same per-function shader properties, same type annotations. -/
def ObsEq (A B : HLModule) : Prop :=
  (∀ i, A.GetCBuffer i = B.GetCBuffer i) ∧
  (∀ i, A.GetSampler i = B.GetSampler i) ∧
  (∀ i, A.GetSRV i = B.GetSRV i) ∧
  (∀ i, A.GetUAV i = B.GetUAV i) ∧
  A.m_InputSignature = B.m_InputSignature ∧
  A.m_OutputSignature = B.m_OutputSignature ∧
  A.m_PatchConstantSignature = B.m_PatchConstantSignature ∧
  (∀ F, A.GetHLFunctionProps F = B.GetHLFunctionProps F) ∧
  (∀ Ty, A.GetResourceClass Ty = B.GetResourceClass Ty ∧
    A.GetResourceKind Ty = B.GetResourceKind Ty)

/-- A model with something in it: some registry entry, some function
properties record, or some input signature element. -/
def ModelNonEmpty (M : HLModule) : Prop :=
  M.m_CBuffers ≠ [] ∨ M.m_Samplers ≠ [] ∨ M.m_SRVs ≠ [] ∨ M.m_UAVs ≠ [] ∨
    M.m_HLFunctionPropsMap ≠ [] ∨ M.m_InputSignature.getD [] ≠ []

/-- A model none of whose signatures has been released: the state every model
is in until retirement, and the state `Emit` is meaningful in. -/
def ModelWellFormed (M : HLModule) : Prop :=
  M.m_InputSignature.isSome = true ∧ M.m_OutputSignature.isSome = true ∧
    M.m_PatchConstantSignature.isSome = true

/-- Register a whole list of resources into an empty registry list, in call
order, through `AddResource`. -/
def registerAll (rs : List ResourceRec) : List (Option ResourceRec) :=
  rs.foldl (fun acc r => (AddResource acc r).2) []

/-- A concrete resource list used as witness input: three resources with
distinct symbols. -/
def sampleResList : List ResourceRec :=
  [⟨1, "a", 0, 1⟩, ⟨2, "b", 1, 1⟩, ⟨3, "c", 2, 1⟩]

/-- A concrete non-empty, well-formed model used as witness input for the
round trip: one constant buffer, one SRV next to a dead slot, an input
signature element, a compute-shader properties record and a type
annotation. -/
def sampleModel : HLModule where
  m_InputSignature := some [⟨"POSITION", 0, 9, 1, 4, 0, 0⟩]
  m_OutputSignature := some []
  m_PatchConstantSignature := some []
  m_SRVs := [some ⟨10, "srv0", 0, 1⟩, none]
  m_UAVs := []
  m_CBuffers := [some ⟨11, "cb0", 0, 1⟩]
  m_Samplers := []
  m_HLFunctionPropsMap := [(5, .CS 8 8 1)]
  m_ResTypeAnnots := [(42, .SRV, .Texture2D)]
  m_EntryName := "main"
  m_Options := HLOptions.defaultInit false
  moduleGlobals := [10, 11]

/-- A freshly constructed empty model, the load target of the round trip. -/
def freshModel : HLModule where
  m_InputSignature := some []
  m_OutputSignature := some []
  m_PatchConstantSignature := some []
  m_SRVs := []
  m_UAVs := []
  m_CBuffers := []
  m_Samplers := []
  m_HLFunctionPropsMap := []
  m_ResTypeAnnots := []
  m_EntryName := ""
  m_Options := HLOptions.defaultInit false
  moduleGlobals := []

/-- The model state `LoadHLMetadata` reconstructs from `EmitHLMetadata M`'s
trees (before the host globals are patched back in): registries are rebuilt
from their serialized (index, entry) pairs, everything else is restored
verbatim. -/
def loadedModel (M : HLModule) : HLModule where
  m_InputSignature := some (M.m_InputSignature.getD [])
  m_OutputSignature := some (M.m_OutputSignature.getD [])
  m_PatchConstantSignature := some (M.m_PatchConstantSignature.getD [])
  m_SRVs := rebuildRegistry (livePairs M.m_SRVs)
  m_UAVs := rebuildRegistry (livePairs M.m_UAVs)
  m_CBuffers := rebuildRegistry (livePairs M.m_CBuffers)
  m_Samplers := rebuildRegistry (livePairs M.m_Samplers)
  m_HLFunctionPropsMap := M.m_HLFunctionPropsMap
  m_ResTypeAnnots := M.m_ResTypeAnnots
  m_EntryName := M.m_EntryName
  m_Options := HLOptions.SetHLOptionsRaw M.m_Options.GetHLOptionsRaw
  moduleGlobals := []

theorem bitToNat_mod_two (n : Nat) : bitToNat (n % 2 == 1) = n % 2 := by
  rcases Nat.mod_two_eq_zero_or_one n with h | h <;> simp [bitToNat, h]

/-- C9: for every 32-bit integer `d`, `SetHLOptionsRaw d` followed by
`GetHLOptionsRaw` returns exactly `d`: the raw set/get pair is a bit-exact
round trip over the full 32-bit word, whose bitfields (five one-bit flags plus
27 unused bits) together cover all 32 bits. -/
theorem HLOptions_raw_roundtrip (d : Nat) (h : d < 2 ^ 32) :
    (HLOptions.SetHLOptionsRaw d).GetHLOptionsRaw = d := by
  simp only [HLOptions.GetHLOptionsRaw, HLOptions.SetHLOptionsRaw,
    bitToNat_mod_two]
  omega

/-- Witness for C9 at the concrete input 3000000005. -/
theorem HLOptions_raw_roundtrip_witness :
    (3000000005 : Nat) < 2 ^ 32 ∧
      (HLOptions.SetHLOptionsRaw 3000000005).GetHLOptionsRaw = 3000000005 :=
  ⟨by norm_num, HLOptions_raw_roundtrip 3000000005 (by norm_num)⟩

/-- C10: the `HLOptions` default constructor initializes `bDefaultRowMajor`,
`bIEEEStrict`, `bDisableOptimizations`, `bLegacyCBufferLoad` to false and
`unused` to 0, but not `bAllResourcesBound`: whatever indeterminate value that
flag takes is what a default-constructed `HLOptions` holds, so the raw option
bitset of a default-constructed `HLOptions` is indeterminate rather than
guaranteed zero (the two possible indeterminate values give different raw
words). -/
theorem HLOptions_defaultInit_leaves_bAllResourcesBound_indeterminate :
    (∀ b : Bool,
        (HLOptions.defaultInit b).bDefaultRowMajor = false ∧
        (HLOptions.defaultInit b).bIEEEStrict = false ∧
        (HLOptions.defaultInit b).bDisableOptimizations = false ∧
        (HLOptions.defaultInit b).bLegacyCBufferLoad = false ∧
        (HLOptions.defaultInit b).unused = 0 ∧
        (HLOptions.defaultInit b).bAllResourcesBound = b) ∧
      (HLOptions.defaultInit true).GetHLOptionsRaw ≠
        (HLOptions.defaultInit false).GetHLOptionsRaw :=
  ⟨fun _ => ⟨rfl, rfl, rfl, rfl, rfl, rfl⟩, by decide⟩

/-- C5: marking a value precise via the marker-call mechanism survives the
value's replacement (standing in for register promotion): after the
replacement rewrites operand uses and the post-conversion step runs, the tag
query reports precise on the replacement value and zero marker calls remain in
the instruction stream. -/
theorem precise_attribute_survives_replacement (S : PreciseIR) (old new : Nat) :
    HasPreciseAttributeWithMetadata
      (ConvertPreciseMarkerCalls
        (replaceAllUses (MarkPreciseAttributeOnPtrWithFunctionCall S old)
          old new)) new = true ∧
    countMarkerCalls
      (ConvertPreciseMarkerCalls
        (replaceAllUses (MarkPreciseAttributeOnPtrWithFunctionCall S old)
          old new)) = 0 := by
  constructor
  · simp [HasPreciseAttributeWithMetadata, ConvertPreciseMarkerCalls,
      replaceAllUses, MarkPreciseAttributeOnPtrWithFunctionCall,
      replaceOperand]
  · simp [countMarkerCalls, ConvertPreciseMarkerCalls, List.filter_filter]

/-- C6: for each of the three signatures, `Release*` transfers ownership out
of the model (it returns the stored signature and leaves a null slot), and a
subsequent access through the accessor fails with `NullReference` instead of
lazily re-allocating a fresh signature (the released slot stays null). -/
theorem released_signature_access_fails (M : HLModule) :
    (M.ReleaseInputSignature.1 = M.m_InputSignature ∧
      M.ReleaseInputSignature.2.GetInputSignature = .error .NullReference ∧
      M.ReleaseInputSignature.2.m_InputSignature = none) ∧
    (M.ReleaseOutputSignature.1 = M.m_OutputSignature ∧
      M.ReleaseOutputSignature.2.GetOutputSignature = .error .NullReference ∧
      M.ReleaseOutputSignature.2.m_OutputSignature = none) ∧
    (M.ReleasePatchConstantSignature.1 = M.m_PatchConstantSignature ∧
      M.ReleasePatchConstantSignature.2.GetPatchConstantSignature =
        .error .NullReference ∧
      M.ReleasePatchConstantSignature.2.m_PatchConstantSignature = none) :=
  ⟨⟨rfl, rfl, rfl⟩, ⟨rfl, rfl, rfl⟩, ⟨rfl, rfl, rfl⟩⟩

theorem lookup_append_single_isSome (l : List (Nat × HLFunctionProps)) (F : Nat)
    (p : HLFunctionProps) : ((l ++ [(F, p)]).lookup F).isSome = true := by
  induction l with
  | nil => simp [List.lookup]
  | cons a l ih =>
      obtain ⟨k, v⟩ := a
      cases h : F == k <;> simp [List.lookup, h, ih]

/-- C7: adding function properties for a function that already has a record is
a usage error signalling `DuplicateEntry` (the existing record is not
overwritten — the add fails), and `GetHLFunctionProps` fails with `NotFound`
when no record for the function is present. -/
theorem function_props_duplicate_and_not_found (M M' : HLModule) (F : Nat)
    (p p' : HLFunctionProps) :
    (M.HasHLFunctionProps F = true →
      M.AddHLFunctionProps F p' = .error .DuplicateEntry) ∧
    (M.AddHLFunctionProps F p = .ok M' →
      M'.AddHLFunctionProps F p' = .error .DuplicateEntry) ∧
    (M.HasHLFunctionProps F = false →
      M.GetHLFunctionProps F = .error .NotFound) := by
  refine ⟨fun h => by simp [HLModule.AddHLFunctionProps, h], fun h => ?_, fun h => ?_⟩
  · rcases hh : M.HasHLFunctionProps F with _ | _ <;>
      simp [HLModule.AddHLFunctionProps, hh] at h
    subst h
    simp [HLModule.AddHLFunctionProps, HLModule.HasHLFunctionProps,
      lookup_append_single_isSome]
  · have hnone : M.m_HLFunctionPropsMap.lookup F = none := by
      cases hl : M.m_HLFunctionPropsMap.lookup F
      · rfl
      · simp [HLModule.HasHLFunctionProps, hl] at h
    simp [HLModule.GetHLFunctionProps, hnone]

theorem lookup_setAssoc_self (l : List (Nat × ResourceClass × ResourceKind))
    (ty : Nat) (v : ResourceClass × ResourceKind) :
    (setAssoc l ty v).lookup ty = some v := by
  induction l with
  | nil => simp [setAssoc, List.lookup]
  | cons a l ih =>
      obtain ⟨k, w⟩ := a
      by_cases h : k = ty
      · subst h
        simp [setAssoc, List.lookup]
      · have hb : (k == ty) = false := by simp [h]
        have hb' : (ty == k) = false := by simp [Ne.symm h]
        simp [setAssoc, hb, List.lookup, hb', ih]

theorem lookup_setAssoc_other (l : List (Nat × ResourceClass × ResourceKind))
    (ty ty' : Nat) (v : ResourceClass × ResourceKind) (h : ty' ≠ ty) :
    (setAssoc l ty v).lookup ty' = l.lookup ty' := by
  have hb : (ty' == ty) = false := by simp [h]
  induction l with
  | nil => simp [setAssoc, List.lookup, hb]
  | cons a l ih =>
      obtain ⟨k, w⟩ := a
      by_cases hk : k = ty
      · subst hk
        simp [setAssoc, List.lookup, hb]
      · have hb2 : (k == ty) = false := by simp [hk]
        simp only [setAssoc, hb2, if_false]
        cases hbk : ty' == k <;> simp [List.lookup, hbk, ih]

theorem setAssoc_keys_mem (l : List (Nat × ResourceClass × ResourceKind))
    (ty : Nat) (v : ResourceClass × ResourceKind) :
    ∀ x ∈ (setAssoc l ty v).map Prod.fst, x = ty ∨ x ∈ l.map Prod.fst := by
  induction l with
  | nil => simp [setAssoc]
  | cons a l ih =>
      obtain ⟨k, w⟩ := a
      by_cases hk : k = ty
      · subst hk
        intro x hx
        have hset : setAssoc ((k, w) :: l) k v = (k, v) :: l := by
          simp [setAssoc]
        rw [hset, List.map_cons, List.mem_cons] at hx
        rw [List.map_cons, List.mem_cons]
        tauto
      · intro x hx
        have hb2 : (k == ty) = false := by simp [hk]
        have hset : setAssoc ((k, w) :: l) ty v = (k, w) :: setAssoc l ty v := by
          simp [setAssoc, hb2]
        rw [hset, List.map_cons, List.mem_cons] at hx
        rw [List.map_cons, List.mem_cons]
        rcases hx with hx | hx
        · exact Or.inr (Or.inl hx)
        · rcases ih x hx with h1 | h1
          · exact Or.inl h1
          · exact Or.inr (Or.inr h1)

theorem setAssoc_keys_nodup (l : List (Nat × ResourceClass × ResourceKind))
    (ty : Nat) (v : ResourceClass × ResourceKind)
    (h : (l.map Prod.fst).Nodup) :
    ((setAssoc l ty v).map Prod.fst).Nodup := by
  induction l with
  | nil => simp [setAssoc]
  | cons a l ih =>
      obtain ⟨k, w⟩ := a
      simp only [List.map_cons, List.nodup_cons] at h
      by_cases hk : k = ty
      · subst hk
        simpa [setAssoc] using h
      · have h1 := ih h.2
        simp only [setAssoc, beq_iff_eq, hk, if_false, List.map_cons,
          List.nodup_cons]
        refine ⟨fun hmem => ?_, h1⟩
        rcases setAssoc_keys_mem l ty v k hmem with h2 | h2
        · exact hk h2
        · exact h.1 h2

/-- C8: probing an unannotated type never fails — `GetResourceClass` and
`GetResourceKind` return the `Invalid` sentinel — and adding an annotation for
an already-annotated type overwrites the existing (class, kind) pair rather
than failing, so each type maps to exactly one annotation (unrelated types are
untouched and key uniqueness is preserved). -/
theorem res_ty_annot_probe_and_overwrite (M : HLModule) (Ty ty' : Nat)
    (c : ResourceClass) (k : ResourceKind) :
    (M.m_ResTypeAnnots.lookup Ty = none →
      M.GetResourceClass Ty = .Invalid ∧ M.GetResourceKind Ty = .Invalid) ∧
    (M.AddResourceTypeAnnot Ty c k).GetResourceClass Ty = c ∧
    (M.AddResourceTypeAnnot Ty c k).GetResourceKind Ty = k ∧
    (ty' ≠ Ty →
      (M.AddResourceTypeAnnot Ty c k).GetResourceClass ty' =
        M.GetResourceClass ty' ∧
      (M.AddResourceTypeAnnot Ty c k).GetResourceKind ty' =
        M.GetResourceKind ty') ∧
    ((M.m_ResTypeAnnots.map Prod.fst).Nodup →
      ((M.AddResourceTypeAnnot Ty c k).m_ResTypeAnnots.map Prod.fst).Nodup) := by
  refine ⟨fun h => ?_, ?_, ?_, fun h => ?_, fun h => ?_⟩
  · constructor <;> simp [HLModule.GetResourceClass, HLModule.GetResourceKind, h]
  · simp [HLModule.GetResourceClass, HLModule.AddResourceTypeAnnot,
      lookup_setAssoc_self]
  · simp [HLModule.GetResourceKind, HLModule.AddResourceTypeAnnot,
      lookup_setAssoc_self]
  · constructor <;>
      simp [HLModule.GetResourceClass, HLModule.GetResourceKind,
        HLModule.AddResourceTypeAnnot, lookup_setAssoc_other _ _ _ _ h]
  · exact setAssoc_keys_nodup _ _ _ h

theorem foldl_addResource (rs : List ResourceRec)
    (acc : List (Option ResourceRec)) :
    rs.foldl (fun a r => (AddResource a r).2) acc = acc ++ rs.map some := by
  induction rs generalizing acc with
  | nil => simp
  | cons r rs ih =>
      rw [List.foldl_cons, ih]
      simp [AddResource]

theorem registerAll_eq (rs : List ResourceRec) :
    registerAll rs = rs.map some := by
  simpa using foldl_addResource rs []

theorem liveAt_map (f : ResourceRec → Option ResourceRec)
    (rs : List ResourceRec) (i : Nat) :
    liveAt (rs.map f) i = rs[i]?.bind f := by
  cases h : rs[i]? <;> simp [liveAt, List.getElem?_map, h]

theorem liveAt_map_some (rs : List ResourceRec) (i : Nat) :
    liveAt (rs.map some) i = rs[i]? := by
  cases h : rs[i]? <;> simp [liveAt, List.getElem?_map, h]

theorem getResource_registerAll (rs : List ResourceRec) (i : Nat)
    (hi : i < rs.length) :
    GetResource (registerAll rs) i = .ok (rs.get ⟨i, hi⟩) := by
  simp [GetResource, registerAll_eq, liveAt_map_some,
    List.getElem?_eq_getElem hi, List.get_eq_getElem]

theorem killMatching_map_some (refs : List Nat) (rs : List ResourceRec) :
    killMatching refs (rs.map some) =
      rs.map fun r => if r.symbol ∈ refs then none else some r := by
  simp [killMatching, List.map_map]

theorem symbols_distinct (rs : List ResourceRec)
    (hnd : (rs.map ResourceRec.symbol).Nodup) (i k : Nat)
    (hi : i < rs.length) (hk : k < rs.length) (hne : i ≠ k) :
    (rs.get ⟨i, hi⟩).symbol ≠ (rs.get ⟨k, hk⟩).symbol := by
  intro heq
  apply hne
  have hmi : i < (rs.map ResourceRec.symbol).length := by simpa using hi
  have hmk : k < (rs.map ResourceRec.symbol).length := by simpa using hk
  have hg : (rs.map ResourceRec.symbol).get ⟨i, hmi⟩ =
      (rs.map ResourceRec.symbol).get ⟨k, hmk⟩ := by
    simp only [List.get_eq_getElem, List.getElem_map]
    simpa only [List.get_eq_getElem] using heq
  have hfin := (List.Nodup.get_inj_iff hnd).mp hg
  simpa using congrArg Fin.val hfin

/-- C3: registering N resources assigns indices 0..N-1 in call order — each
`Add` (in every category: CBuffer, Sampler, SRV, UAV) returns the current size
of that category's list and grows it by one, and `Get` at index i returns the
i-th registered resource; after removing one resource, earlier-added survivors
keep their indices unchanged, and a subsequent `Get` on the removed index
signals `IndexOutOfRange`. -/
theorem resource_index_stability (rs : List ResourceRec) (k : Nat)
    (hk : k < rs.length) (hnd : (rs.map ResourceRec.symbol).Nodup) :
    (∀ (M : HLModule) r, (M.AddCBuffer r).1 = M.m_CBuffers.length ∧
      ((M.AddCBuffer r).2).m_CBuffers.length = M.m_CBuffers.length + 1) ∧
    (∀ (M : HLModule) r, (M.AddSampler r).1 = M.m_Samplers.length ∧
      ((M.AddSampler r).2).m_Samplers.length = M.m_Samplers.length + 1) ∧
    (∀ (M : HLModule) r, (M.AddSRV r).1 = M.m_SRVs.length ∧
      ((M.AddSRV r).2).m_SRVs.length = M.m_SRVs.length + 1) ∧
    (∀ (M : HLModule) r, (M.AddUAV r).1 = M.m_UAVs.length ∧
      ((M.AddUAV r).2).m_UAVs.length = M.m_UAVs.length + 1) ∧
    (∀ i, (hi : i < rs.length) →
      GetResource (registerAll rs) i = .ok (rs.get ⟨i, hi⟩)) ∧
    (∀ i, i < k →
      GetResource (killMatching [(rs.get ⟨k, hk⟩).symbol] (registerAll rs)) i =
        GetResource (registerAll rs) i) ∧
    GetResource (killMatching [(rs.get ⟨k, hk⟩).symbol] (registerAll rs)) k =
      .error .IndexOutOfRange := by
  refine ⟨fun M r => ⟨rfl, by simp [HLModule.AddCBuffer, AddResource]⟩,
    fun M r => ⟨rfl, by simp [HLModule.AddSampler, AddResource]⟩,
    fun M r => ⟨rfl, by simp [HLModule.AddSRV, AddResource]⟩,
    fun M r => ⟨rfl, by simp [HLModule.AddUAV, AddResource]⟩,
    fun i hi => getResource_registerAll rs i hi, fun i hik => ?_, ?_⟩
  · have hi : i < rs.length := lt_trans hik hk
    have hne := symbols_distinct rs hnd i k hi hk (Nat.ne_of_lt hik)
    have hne' : rs[i].symbol ≠ rs[k].symbol := hne
    rw [registerAll_eq, killMatching_map_some]
    simp [GetResource, liveAt_map, liveAt_map_some,
      List.getElem?_eq_getElem hi, hne']
  · rw [registerAll_eq, killMatching_map_some]
    simp [GetResource, liveAt_map, List.getElem?_eq_getElem hk,
      List.get_eq_getElem]

/-- Witness for C3 at a concrete three-element resource list, removing the
middle resource. -/
theorem resource_index_stability_witness :
    (1 < sampleResList.length ∧
      (sampleResList.map ResourceRec.symbol).Nodup) ∧
    GetResource
      (killMatching [(sampleResList.get ⟨1, by decide⟩).symbol]
        (registerAll sampleResList)) 1 = .error .IndexOutOfRange :=
  ⟨⟨by decide, by decide⟩,
    (resource_index_stability sampleResList 1 (by decide) (by decide)).2.2.2.2.2.2⟩

theorem isResourceSymbol_false_parts (M : HLModule) (g : Nat)
    (h : M.IsResourceSymbol g = false) :
    M.m_CBuffers.any (symbolIs g) = false ∧
    M.m_Samplers.any (symbolIs g) = false ∧
    M.m_SRVs.any (symbolIs g) = false ∧
    M.m_UAVs.any (symbolIs g) = false := by
  simp only [HLModule.IsResourceSymbol, List.any_append,
    Bool.or_eq_false_iff] at h
  tauto

theorem killMatching_cons_of_no_symbol (g : Nat) (refs : List Nat)
    (vec : List (Option ResourceRec)) (h : vec.any (symbolIs g) = false) :
    killMatching (g :: refs) vec = killMatching refs vec := by
  apply List.map_congr_left
  intro o ho
  cases o with
  | none => rfl
  | some r =>
      simp only [List.any_eq_false] at h
      have hb := h (some r) ho
      simp only [symbolIs, beq_iff_eq] at hb
      simp [List.mem_cons, hb]

theorem filter_globals_cons_of_no_symbol (M : HLModule) (g : Nat)
    (refs : List Nat) (h : M.IsResourceSymbol g = false) :
    (M.moduleGlobals.filter fun x =>
        !(decide (x ∈ g :: refs) && M.IsResourceSymbol x)) =
      M.moduleGlobals.filter fun x =>
        !(decide (x ∈ refs) && M.IsResourceSymbol x) := by
  apply List.filter_congr
  intro x hx
  by_cases hxg : x = g
  · subst hxg
    simp [h]
  · simp [List.mem_cons, hxg]

theorem getResource_killMatching_matching (refs : List Nat)
    (vec : List (Option ResourceRec)) (i : Nat) (r : ResourceRec)
    (hl : liveAt vec i = some r) (hm : r.symbol ∈ refs) :
    GetResource (killMatching refs vec) i = .error .IndexOutOfRange := by
  have hv : vec[i]? = some (some r) := by
    cases h : vec[i]? with
    | none => simp [liveAt, h] at hl
    | some o =>
        cases o with
        | none => simp [liveAt, h] at hl
        | some s =>
            have hsr : s = r := by simpa [liveAt, h] using hl
            rw [hsr]
  have hkill : liveAt (killMatching refs vec) i = none := by
    simp [liveAt, killMatching, List.getElem?_map, hv, hm]
  simp [GetResource, hkill]

theorem getResource_killMatching_not_matching (refs : List Nat)
    (vec : List (Option ResourceRec)) (i : Nat) (r : ResourceRec)
    (hl : liveAt vec i = some r) (hm : r.symbol ∉ refs) :
    GetResource (killMatching refs vec) i = .ok r := by
  have hv : vec[i]? = some (some r) := by
    cases h : vec[i]? with
    | none => simp [liveAt, h] at hl
    | some o =>
        cases o with
        | none => simp [liveAt, h] at hl
        | some s =>
            have hsr : s = r := by simpa [liveAt, h] using hl
            rw [hsr]
  have hkill : liveAt (killMatching refs vec) i = some r := by
    simp [liveAt, killMatching, List.getElem?_map, hv, hm]
  simp [GetResource, hkill]

/-- C4: for every batch of global-variable references handed to
`RemoveResources`, exactly the matching live entries are removed across all
four categories — a matching index subsequently signals `IndexOutOfRange` —
each non-matching reference is a per-entry no-op (a reference that is not a
registered resource symbol changes nothing), live entries whose symbol is not
in the batch are left untouched, the operation is total (it never fails or
aborts the batch), and exactly the removed globals are detached from the host
module's global list. -/
theorem remove_resources_partial_batch (M : HLModule) (refs : List Nat) :
    (∀ g, M.IsResourceSymbol g = false →
      M.RemoveResources (g :: refs) = M.RemoveResources refs) ∧
    (∀ i r, liveAt M.m_CBuffers i = some r → r.symbol ∈ refs →
      (M.RemoveResources refs).GetCBuffer i = .error .IndexOutOfRange) ∧
    (∀ i r, liveAt M.m_Samplers i = some r → r.symbol ∈ refs →
      (M.RemoveResources refs).GetSampler i = .error .IndexOutOfRange) ∧
    (∀ i r, liveAt M.m_SRVs i = some r → r.symbol ∈ refs →
      (M.RemoveResources refs).GetSRV i = .error .IndexOutOfRange) ∧
    (∀ i r, liveAt M.m_UAVs i = some r → r.symbol ∈ refs →
      (M.RemoveResources refs).GetUAV i = .error .IndexOutOfRange) ∧
    (∀ i r, liveAt M.m_CBuffers i = some r → r.symbol ∉ refs →
      (M.RemoveResources refs).GetCBuffer i = .ok r) ∧
    (∀ i r, liveAt M.m_Samplers i = some r → r.symbol ∉ refs →
      (M.RemoveResources refs).GetSampler i = .ok r) ∧
    (∀ i r, liveAt M.m_SRVs i = some r → r.symbol ∉ refs →
      (M.RemoveResources refs).GetSRV i = .ok r) ∧
    (∀ i r, liveAt M.m_UAVs i = some r → r.symbol ∉ refs →
      (M.RemoveResources refs).GetUAV i = .ok r) ∧
    (∀ g, g ∈ (M.RemoveResources refs).moduleGlobals ↔
      g ∈ M.moduleGlobals ∧ ¬(g ∈ refs ∧ M.IsResourceSymbol g = true)) := by
  refine ⟨fun g hg => ?_,
    fun i r hl hm => getResource_killMatching_matching refs _ i r hl hm,
    fun i r hl hm => getResource_killMatching_matching refs _ i r hl hm,
    fun i r hl hm => getResource_killMatching_matching refs _ i r hl hm,
    fun i r hl hm => getResource_killMatching_matching refs _ i r hl hm,
    fun i r hl hm => getResource_killMatching_not_matching refs _ i r hl hm,
    fun i r hl hm => getResource_killMatching_not_matching refs _ i r hl hm,
    fun i r hl hm => getResource_killMatching_not_matching refs _ i r hl hm,
    fun i r hl hm => getResource_killMatching_not_matching refs _ i r hl hm,
    fun g => ?_⟩
  · obtain ⟨h1, h2, h3, h4⟩ := isResourceSymbol_false_parts M g hg
    simp only [HLModule.RemoveResources]
    rw [killMatching_cons_of_no_symbol g refs _ h1,
      killMatching_cons_of_no_symbol g refs _ h2,
      killMatching_cons_of_no_symbol g refs _ h3,
      killMatching_cons_of_no_symbol g refs _ h4,
      filter_globals_cons_of_no_symbol M g refs hg]
  · simp only [HLModule.RemoveResources, List.mem_filter, Bool.not_eq_true',
      Bool.and_eq_false_iff, decide_eq_false_iff_not]
    constructor
    · rintro ⟨hmem, hcond⟩
      refine ⟨hmem, fun hc => ?_⟩
      rcases hcond with hc1 | hc1
      · exact hc1 hc.1
      · rw [hc.2] at hc1
        simp at hc1
    · rintro ⟨hmem, hcond⟩
      refine ⟨hmem, ?_⟩
      by_cases hin : g ∈ refs
      · right
        cases hres : M.IsResourceSymbol g
        · rfl
        · exact absurd ⟨hin, hres⟩ hcond
      · exact Or.inl hin

theorem hl_bind_ok {α β : Type} (a : α) (f : α → Except HLError β) :
    (Except.ok a >>= f : Except HLError β) = f a := rfl

theorem livePairsFrom_append (l1 l2 : List (Option ResourceRec)) (s : Nat) :
    livePairsFrom s (l1 ++ l2) =
      livePairsFrom s l1 ++ livePairsFrom (s + l1.length) l2 := by
  induction l1 generalizing s with
  | nil => simp [livePairsFrom]
  | cons o l ih =>
      have harith : s + 1 + l.length = s + (l.length + 1) := by omega
      cases o with
      | none =>
          simp only [List.cons_append, livePairsFrom, List.append_eq, ih,
            harith, List.length_cons]
      | some r =>
          simp only [List.cons_append, livePairsFrom, List.append_eq, ih,
            harith, List.length_cons]

theorem livePairs_append_none (l : List (Option ResourceRec)) :
    livePairs (l ++ [none]) = livePairs l := by
  simp [livePairs, livePairsFrom_append, livePairsFrom]

theorem livePairs_append_some (l : List (Option ResourceRec)) (r : ResourceRec) :
    livePairs (l ++ [some r]) = livePairs l ++ [(l.length, r)] := by
  simp [livePairs, livePairsFrom_append, livePairsFrom]

theorem rebuildRegistry_append (ps : List (Nat × ResourceRec))
    (q : Nat × ResourceRec) :
    rebuildRegistry (ps ++ [q]) = setAtIndex (rebuildRegistry ps) q.1 q.2 := by
  simp [rebuildRegistry, List.foldl_append]

theorem setAtIndex_ge (l : List (Option ResourceRec)) (idx : Nat)
    (r : ResourceRec) (h : l.length ≤ idx) :
    setAtIndex l idx r =
      l ++ List.replicate (idx - l.length) none ++ [some r] := by
  rw [setAtIndex, if_neg (by omega)]

theorem setAtIndex_ge_length (l : List (Option ResourceRec)) (idx : Nat)
    (r : ResourceRec) (h : l.length ≤ idx) :
    (setAtIndex l idx r).length = idx + 1 := by
  rw [setAtIndex_ge l idx r h]
  simp only [List.length_append, List.length_replicate, List.length_cons,
    List.length_nil]
  omega

theorem liveAt_ge (l : List (Option ResourceRec)) (i : Nat)
    (h : l.length ≤ i) : liveAt l i = none := by
  simp [liveAt, List.getElem?_eq_none h]

theorem liveAt_append_lt (l1 l2 : List (Option ResourceRec)) (i : Nat)
    (h : i < l1.length) : liveAt (l1 ++ l2) i = liveAt l1 i := by
  simp [liveAt, List.getElem?_append_left h]

theorem liveAt_setAtIndex_lt (R : List (Option ResourceRec)) (idx : Nat)
    (r : ResourceRec) (j : Nat) (h : R.length ≤ idx) (hj : j < idx) :
    liveAt (setAtIndex R idx r) j = liveAt R j := by
  rw [setAtIndex_ge R idx r h]
  have h1 : j < (R ++ List.replicate (idx - R.length) none).length := by
    simp only [List.length_append, List.length_replicate]
    omega
  by_cases hjR : j < R.length
  · rw [liveAt_append_lt _ _ _ h1, liveAt_append_lt _ _ _ hjR]
  · have hR : R.length ≤ j := by omega
    rw [liveAt_append_lt _ _ _ h1, liveAt_ge R j hR]
    simp only [liveAt, List.getElem?_append_right hR, List.getElem?_replicate]
    by_cases h2 : j - R.length < idx - R.length <;> simp [h2]

theorem liveAt_setAtIndex_self (R : List (Option ResourceRec)) (idx : Nat)
    (r : ResourceRec) (h : R.length ≤ idx) :
    liveAt (setAtIndex R idx r) idx = some r := by
  rw [setAtIndex_ge R idx r h]
  have hlen : (R ++ List.replicate (idx - R.length) none).length = idx := by
    simp only [List.length_append, List.length_replicate]
    omega
  simp only [liveAt]
  rw [List.getElem?_append_right hlen.le, hlen]
  simp

theorem liveAt_setAtIndex_gt (R : List (Option ResourceRec)) (idx : Nat)
    (r : ResourceRec) (j : Nat) (h : R.length ≤ idx) (hj : idx < j) :
    liveAt (setAtIndex R idx r) j = none := by
  apply liveAt_ge
  rw [setAtIndex_ge_length R idx r h]
  omega

theorem rebuild_livePairs_invariant (vec : List (Option ResourceRec)) :
    (rebuildRegistry (livePairs vec)).length ≤ vec.length ∧
      ∀ i, liveAt (rebuildRegistry (livePairs vec)) i = liveAt vec i := by
  induction vec using List.reverseRecOn with
  | nil =>
      refine ⟨by simp [livePairs, livePairsFrom, rebuildRegistry], fun i => ?_⟩
      simp [livePairs, livePairsFrom, rebuildRegistry, liveAt]
  | append_singleton l o ih =>
      obtain ⟨ihlen, ihlive⟩ := ih
      cases o with
      | none =>
          rw [livePairs_append_none]
          refine ⟨by simp only [List.length_append, List.length_cons,
            List.length_nil]; omega, fun i => ?_⟩
          rw [ihlive i]
          by_cases hi : i < l.length
          · rw [liveAt_append_lt _ _ _ hi]
          · push_neg at hi
            rw [liveAt_ge l i hi]
            by_cases hie : i = l.length
            · subst hie
              simp [liveAt, List.getElem?_append_right (le_refl l.length)]
            · rw [liveAt_ge (l ++ [none]) i
                (by simp only [List.length_append, List.length_cons,
                  List.length_nil]; omega)]
      | some r =>
          rw [livePairs_append_some, rebuildRegistry_append]
          refine ⟨?_, fun i => ?_⟩
          · rw [setAtIndex_ge_length _ _ _ ihlen]
            simp
          · rcases lt_trichotomy i l.length with hi | hi | hi
            · rw [liveAt_setAtIndex_lt _ _ _ _ ihlen hi, ihlive i,
                liveAt_append_lt _ _ _ hi]
            · subst hi
              rw [liveAt_setAtIndex_self _ _ _ ihlen]
              simp [liveAt, List.getElem?_append_right (le_refl l.length)]
            · rw [liveAt_setAtIndex_gt _ _ _ _ ihlen hi,
                liveAt_ge (l ++ [some r]) i
                  (by simp only [List.length_append, List.length_cons,
                    List.length_nil]; omega)]

theorem parseEach_map {α : Type} (f : Metadata → Except HLError α)
    (g : α → Metadata) (h : ∀ a, f (g a) = .ok a) (l : List α) :
    parseEach f (l.map g) = .ok l := by
  induction l with
  | nil => rfl
  | cons a l ih => simp [parseEach, h, ih, hl_bind_ok]

theorem parseNat_emit (n : Nat) : parseNat (.num n) = .ok n := rfl

theorem parseResourceRec_emit (p : Nat × ResourceRec) :
    parseResourceRec (emitResourceRec p) = .ok p := by
  rcases p with ⟨i, s, n, lb, rsz⟩
  rfl

theorem parseSigElement_emit (e : DxilSignatureElement) :
    parseSigElement (emitSigElement e) = .ok e := by
  rcases e with ⟨nm, sv, ct, r, c, sr, sc⟩
  rfl

theorem parseShaderProps_emit (p : HLFunctionProps) :
    parseShaderProps (emitShaderProps p) = .ok p := by
  cases p with
  | CS x y z => rfl
  | GS ip mv ic st => rfl
  | HS pcf d pa op icp ocp mtf => rfl
  | DS d icp => rfl
  | VS cps =>
      simp [emitShaderProps, parseShaderProps, parseNatList,
        parseEach_map parseNat Metadata.num parseNat_emit, hl_bind_ok]
  | PS eds => cases eds <;> rfl

theorem parseFuncPropsEntry_emit (p : Nat × HLFunctionProps) :
    parseFuncPropsEntry (.tup [.num p.1, emitShaderProps p.2]) = .ok p := by
  rcases p with ⟨fn, pr⟩
  simp [parseFuncPropsEntry, parseShaderProps_emit, hl_bind_ok]

theorem resClassOfNat_toNat (c : ResourceClass) :
    resClassOfNat (resClassToNat c) = some c := by
  cases c <;> rfl

theorem resKindOfNat_toNat (k : ResourceKind) :
    resKindOfNat (resKindToNat k) = some k := by
  cases k <;> rfl

theorem parseResTyAnnot_emit (p : Nat × ResourceClass × ResourceKind) :
    parseResTyAnnot (.tup [.num p.1, .num (resClassToNat p.2.1),
      .num (resKindToNat p.2.2)]) = .ok p := by
  rcases p with ⟨ty, c, k⟩
  simp [parseResTyAnnot, parseResClass, parseResKind, resClassOfNat_toNat,
    resKindOfNat_toNat, hl_bind_ok]

theorem parseResourceList_emit (vec : List (Option ResourceRec)) :
    parseResourceList (emitResourceList vec) =
      .ok (rebuildRegistry (livePairs vec)) := by
  simp [emitResourceList, parseResourceList,
    parseEach_map parseResourceRec emitResourceRec parseResourceRec_emit,
    hl_bind_ok]

theorem parseSignature_emit (s : Option DxilSignature) :
    parseSignature (emitSignature s) = .ok (s.getD []) := by
  simp [emitSignature, parseSignature,
    parseEach_map parseSigElement emitSigElement parseSigElement_emit]

theorem findNamed_emit_version (M : HLModule) :
    findNamed (EmitHLMetadata M) kHLVersionMDName =
      some (.tup [.num kHLMajorVersion, .num kHLMinorVersion]) := rfl

theorem findNamed_emit_entry (M : HLModule) :
    findNamed (EmitHLMetadata M) kHLEntryMDName = some (emitHLEntry M) := rfl

theorem findNamed_emit_resources (M : HLModule) :
    findNamed (EmitHLMetadata M) kHLResourcesMDName =
      some (emitHLResources M) := rfl

theorem findNamed_emit_signatures (M : HLModule) :
    findNamed (EmitHLMetadata M) kHLSignaturesMDName =
      some (emitHLSignatures M) := rfl

theorem findNamed_emit_annots (M : HLModule) :
    findNamed (EmitHLMetadata M) kHLResTyAnnotMDName =
      some (emitResTyAnnots M) := rfl

theorem findNamed_emit_options (M : HLModule) :
    findNamed (EmitHLMetadata M) kHLOptionsMDName =
      some (.num M.m_Options.GetHLOptionsRaw) := rfl

theorem loadHLVersion_emit (M : HLModule) :
    loadHLVersion (EmitHLMetadata M) =
      .ok (kHLMajorVersion, kHLMinorVersion) := by
  simp only [loadHLVersion, findNamed_emit_version]

theorem loadHLEntry_emit (M : HLModule) :
    loadHLEntry (EmitHLMetadata M) =
      .ok (M.m_EntryName, M.m_HLFunctionPropsMap) := by
  simp only [loadHLEntry, findNamed_emit_entry, emitHLEntry, parseHLEntry]
  simp [parseEach_map parseFuncPropsEntry
    (fun p => .tup [.num p.1, emitShaderProps p.2]) parseFuncPropsEntry_emit,
    hl_bind_ok]

theorem loadHLResources_emit (M : HLModule) :
    loadHLResources (EmitHLMetadata M) =
      .ok (rebuildRegistry (livePairs M.m_SRVs),
        rebuildRegistry (livePairs M.m_UAVs),
        rebuildRegistry (livePairs M.m_CBuffers),
        rebuildRegistry (livePairs M.m_Samplers)) := by
  simp only [loadHLResources, findNamed_emit_resources, emitHLResources]
  simp [parseResourceList_emit, hl_bind_ok]

theorem loadHLSignatures_emit (M : HLModule) :
    loadHLSignatures (EmitHLMetadata M) =
      .ok (M.m_InputSignature.getD [], M.m_OutputSignature.getD [],
        M.m_PatchConstantSignature.getD []) := by
  simp only [loadHLSignatures, findNamed_emit_signatures, emitHLSignatures]
  simp [parseSignature_emit, hl_bind_ok]

theorem loadResTyAnnots_emit (M : HLModule) :
    loadResTyAnnots (EmitHLMetadata M) = .ok M.m_ResTypeAnnots := by
  simp only [loadResTyAnnots, findNamed_emit_annots, emitResTyAnnots]
  simp [parseEach_map parseResTyAnnot
    (fun p => .tup [.num p.1, .num (resClassToNat p.2.1),
      .num (resKindToNat p.2.2)]) parseResTyAnnot_emit]

theorem loadHLOptions_emit (M : HLModule) :
    loadHLOptions (EmitHLMetadata M) =
      .ok (HLOptions.SetHLOptionsRaw M.m_Options.GetHLOptionsRaw) := by
  simp only [loadHLOptions, findNamed_emit_options]

theorem loadHLMetadataCore_emit (M : HLModule) :
    loadHLMetadataCore (EmitHLMetadata M) = .ok (loadedModel M) := by
  simp only [loadHLMetadataCore, loadHLVersion_emit, hl_bind_ok]
  simp only [if_true]
  simp only [loadHLEntry_emit, loadHLResources_emit, loadHLSignatures_emit,
    loadResTyAnnots_emit, loadHLOptions_emit, hl_bind_ok, loadedModel]

/-- C1: for every non-empty model `M` (all signatures still owned), calling
`EmitHLMetadata` to serialize `M` and then `LoadHLMetadata` into a fresh model
of matching schema version succeeds and yields a model observationally equal
to `M`: the same resource at every index of every category, the same
input/output/patch-constant signature element order, the same per-function
shader properties, and the same type annotations. -/
theorem EmitHLMetadata_LoadHLMetadata_roundtrip (M fresh : HLModule)
    (hne : ModelNonEmpty M) (hwf : ModelWellFormed M) :
    (LoadHLMetadata fresh (EmitHLMetadata M)).2 = none ∧
      ObsEq (LoadHLMetadata fresh (EmitHLMetadata M)).1 M := by
  obtain ⟨hin, hout, hpc⟩ := hwf
  have hload : LoadHLMetadata fresh (EmitHLMetadata M) =
      ({ loadedModel M with moduleGlobals := fresh.moduleGlobals }, none) := by
    simp [LoadHLMetadata, loadHLMetadataCore_emit]
  rw [hload]
  refine ⟨rfl, fun i => ?_, fun i => ?_, fun i => ?_, fun i => ?_, ?_, ?_, ?_,
    fun F => rfl, fun Ty => ⟨rfl, rfl⟩⟩
  · show GetResource (rebuildRegistry (livePairs M.m_CBuffers)) i =
      GetResource M.m_CBuffers i
    unfold GetResource
    rw [(rebuild_livePairs_invariant M.m_CBuffers).2 i]
  · show GetResource (rebuildRegistry (livePairs M.m_Samplers)) i =
      GetResource M.m_Samplers i
    unfold GetResource
    rw [(rebuild_livePairs_invariant M.m_Samplers).2 i]
  · show GetResource (rebuildRegistry (livePairs M.m_SRVs)) i =
      GetResource M.m_SRVs i
    unfold GetResource
    rw [(rebuild_livePairs_invariant M.m_SRVs).2 i]
  · show GetResource (rebuildRegistry (livePairs M.m_UAVs)) i =
      GetResource M.m_UAVs i
    unfold GetResource
    rw [(rebuild_livePairs_invariant M.m_UAVs).2 i]
  · show some (M.m_InputSignature.getD []) = M.m_InputSignature
    cases hsig : M.m_InputSignature with
    | some s => simp
    | none =>
        rw [hsig] at hin
        simp at hin
  · show some (M.m_OutputSignature.getD []) = M.m_OutputSignature
    cases hsig : M.m_OutputSignature with
    | some s => simp
    | none =>
        rw [hsig] at hout
        simp at hout
  · show some (M.m_PatchConstantSignature.getD []) = M.m_PatchConstantSignature
    cases hsig : M.m_PatchConstantSignature with
    | some s => simp
    | none =>
        rw [hsig] at hpc
        simp at hpc

/-- Witness for C1 at a concrete non-empty model with a dead SRV slot. -/
theorem EmitHLMetadata_LoadHLMetadata_roundtrip_witness :
    (ModelNonEmpty sampleModel ∧ ModelWellFormed sampleModel) ∧
      ((LoadHLMetadata freshModel (EmitHLMetadata sampleModel)).2 = none ∧
        ObsEq (LoadHLMetadata freshModel (EmitHLMetadata sampleModel)).1
          sampleModel) :=
  ⟨⟨by unfold ModelNonEmpty; decide, by unfold ModelWellFormed; decide⟩,
    EmitHLMetadata_LoadHLMetadata_roundtrip sampleModel freshModel
      (by unfold ModelNonEmpty; decide) (by unfold ModelWellFormed; decide)⟩

/-- C2: `LoadHLMetadata` on metadata whose schema tag carries an incompatible
newer major version signals `SchemaVersionMismatch` and leaves the target
model untouched; and every failing load, whatever the error, leaves the
target model completely unmodified (all-or-nothing). -/
theorem LoadHLMetadata_version_gate_all_or_nothing (target : HLModule)
    (md : List (String × Metadata)) :
    (∀ maj minr, findNamed md kHLVersionMDName =
        some (.tup [.num maj, .num minr]) →
      kHLMajorVersion < maj →
      LoadHLMetadata target md = (target, some .SchemaVersionMismatch)) ∧
    (∀ e, (LoadHLMetadata target md).2 = some e →
      (LoadHLMetadata target md).1 = target) := by
  constructor
  · intro maj minr hfind hlt
    have hver : loadHLVersion md = .ok (maj, minr) := by
      simp only [loadHLVersion, hfind]
    have hmaj : ¬((maj, minr).1 = kHLMajorVersion) := by
      simp only [kHLMajorVersion] at hlt ⊢
      omega
    have hcore : loadHLMetadataCore md = .error .SchemaVersionMismatch := by
      simp only [loadHLMetadataCore, hver, hl_bind_ok]
      rw [if_neg hmaj]
    simp [LoadHLMetadata, hcore]
  · intro e he
    cases hcore : loadHLMetadataCore md with
    | ok m => simp [LoadHLMetadata, hcore] at he
    | error e2 => simp [LoadHLMetadata, hcore]
